import Mathlib

/-!
Shallow embedding of `src/econ_analysis.py` (module `econ_analysis`): a small
econometrics utility with a data simulator (`simulate_wage_data`), an analyzer
class (`EconAnalyzer`) holding a dataset and a model registry, and a model
comparison aggregator (`robust_regression_summary`).

Conventions of the embedding:
* Python `float` values that the repository's own code merely stores, adds,
  multiplies and compares are modelled as `ℚ` (exact, decidable) in the
  analyzer/aggregator part, and as `ℝ` in the simulator part, whose
  data-generating process applies `Real.exp`.
* A `pandas.DataFrame` is modelled as an association list from column name to
  column (list of values); a Python `dict` likewise, with `setKey` implementing
  the dict/DataFrame assignment semantics: replace in place when the key is
  present, append at the end when it is new.
* Fallible Python code (KeyError, ValueError, NameError) is modelled with
  `Except PyErr`.
* The external collaborators (numpy's random generator, `np.clip`,
  `sm.add_constant`, `sm.OLS(...).fit()`) are not part of the repository; they
  are modelled from the spec's black-box contracts, each marked
  `Modelled from the spec:` in its doc comment.
-/

set_option autoImplicit false

namespace EconAnalysis

/-- Python exceptions that the embedded code can raise. -/
inductive PyErr where
  | nameError (n : String)
  | keyError (k : String)
  | valueError (msg : String)
  deriving DecidableEq, Repr

/-- Whether an `Except` computation succeeded (did not raise). -/
def succeeds {ε α : Type} : Except ε α → Bool
  | Except.ok _ => true
  | Except.error _ => false

/-- Lookup of a key in an association list (Python `d[k]` returning `None`
when absent is handled by the caller). -/
def lookupKey {α : Type} (k : String) : List (String × α) → Option α
  | [] => none
  | (k', v) :: rest => if k' = k then some v else lookupKey k rest

/-- Python `d[k] = v` on a dict, and `df[k] = col` on a DataFrame: replace the
value in place when the key is present, append a new entry at the end when it
is not.  (On the key-unique association lists built by `setKey` itself this is
exactly the CPython dict semantics: an overwrite keeps the key's original
insertion position.) -/
def setKey {α : Type} (k : String) (v : α) : List (String × α) → List (String × α)
  | [] => [(k, v)]
  | (k', v') :: rest => if k' = k then (k, v) :: rest else (k', v') :: setKey k v rest

theorem lookupKey_setKey_self {α : Type} (k : String) (v : α) :
    ∀ d : List (String × α), lookupKey k (setKey k v d) = some v := by
  intro d
  induction d with
  | nil => simp [setKey, lookupKey]
  | cons hd tl ih =>
      obtain ⟨k', v'⟩ := hd
      by_cases h : k' = k
      · simp [setKey, h, lookupKey]
      · simp [setKey, h, lookupKey, ih]

theorem lookupKey_setKey_ne {α : Type} (k k' : String) (v : α) (hne : k' ≠ k) :
    ∀ d : List (String × α), lookupKey k' (setKey k v d) = lookupKey k' d := by
  have hkk : k ≠ k' := fun h => hne h.symm
  intro d
  induction d with
  | nil => simp [setKey, lookupKey, hkk]
  | cons hd tl ih =>
      obtain ⟨k₀, v₀⟩ := hd
      by_cases h : k₀ = k
      · subst h
        simp [setKey, lookupKey, hkk]
      · simp [setKey, h, lookupKey, ih]

theorem length_setKey_present {α : Type} (k : String) (v : α) :
    ∀ d : List (String × α), (lookupKey k d).isSome →
      (setKey k v d).length = d.length := by
  intro d
  induction d with
  | nil => simp [lookupKey]
  | cons hd tl ih =>
      obtain ⟨k₀, v₀⟩ := hd
      by_cases h : k₀ = k
      · simp [setKey, h]
      · simp only [lookupKey, h, if_false, setKey]
        intro hs
        simp [ih hs]

theorem length_setKey_absent {α : Type} (k : String) (v : α) :
    ∀ d : List (String × α), lookupKey k d = none →
      (setKey k v d).length = d.length + 1 := by
  intro d
  induction d with
  | nil => simp [setKey]
  | cons hd tl ih =>
      obtain ⟨k₀, v₀⟩ := hd
      by_cases h : k₀ = k
      · simp [lookupKey, h]
      · simp only [lookupKey, h, if_false, setKey]
        intro hs
        simp [ih hs]

theorem setKey_absent_append {α : Type} (k : String) (v : α) :
    ∀ d : List (String × α), lookupKey k d = none →
      setKey k v d = d ++ [(k, v)] := by
  intro d
  induction d with
  | nil => simp [setKey]
  | cons hd tl ih =>
      obtain ⟨k₀, v₀⟩ := hd
      by_cases h : k₀ = k
      · simp [lookupKey, h]
      · simp only [lookupKey, h, if_false, setKey]
        intro hs
        simp [ih hs]

theorem lookupKey_append_none {α : Type} (k : String) (l₁ l₂ : List (String × α))
    (h : lookupKey k l₁ = none) : lookupKey k (l₁ ++ l₂) = lookupKey k l₂ := by
  induction l₁ with
  | nil => simp
  | cons hd tl ih =>
      obtain ⟨k₀, v₀⟩ := hd
      by_cases hk : k₀ = k
      · simp [lookupKey, hk] at h
      · simp only [lookupKey, hk, if_false] at h
        simp [lookupKey, hk, ih h]

/-- A `pandas.DataFrame`: named columns in order, each a list of values. -/
abbrev Frame (α : Type) := List (String × List α)

/-- Modelled from the spec: the fitted-model result produced by the external
OLS solver (`sm.OLS(y, X).fit()`), an opaque record exposing a coefficient
vector indexed by variable name (including the intercept), standard errors,
t-statistics and p-values indexed the same way, and the scalar goodness-of-fit
statistics read off by the aggregator.  Immutable once produced. -/
structure FittedModel where
  params : List (String × ℚ)
  bse : List (String × ℚ)
  tvalues : List (String × ℚ)
  pvalues : List (String × ℚ)
  rsquared : ℚ
  rsquared_adj : ℚ
  fvalue : ℚ
  f_pvalue : ℚ
  aic : ℚ
  bic : ℚ
  nobs : ℚ
  deriving DecidableEq, Repr

/-- Modelled from the spec: `sm.add_constant(X)` prepends an intercept column
of ones named `const` to the design frame. -/
def add_constant (X : Frame ℚ) : Frame ℚ :=
  ("const", List.replicate (match X with | [] => 0 | c :: _ => c.2.length) (1 : ℚ)) :: X

/-- Modelled from the spec: `sm.OLS(y, X).fit()`, the external least-squares
solver, a black box whose numeric output is out of scope.  Per the
collaborator contract it returns one coefficient (and standard error,
t-statistic, p-value) per design-matrix column, indexed by that column's name;
the stand-in records the column names with placeholder numeric values and the
observation count of the response vector.  Every theorem below uses only this
shape, never the placeholder numbers. -/
def olsFit (X : Frame ℚ) (y : List ℚ) : FittedModel where
  params := X.map (fun c => (c.1, 0))
  bse := X.map (fun c => (c.1, 0))
  tvalues := X.map (fun c => (c.1, 0))
  pvalues := X.map (fun c => (c.1, 0))
  rsquared := 0
  rsquared_adj := 0
  fvalue := 0
  f_pvalue := 0
  aic := 0
  bic := 0
  nobs := (y.length : ℚ)

/-- Python `df[ks]` (column selection by a list of labels): the selected
columns in the order requested; KeyError on the first missing label. -/
def selectCols (df : Frame ℚ) : List String → Except PyErr (Frame ℚ)
  | [] => Except.ok []
  | k :: ks =>
    match lookupKey k df, selectCols df ks with
    | some c, Except.ok rest => Except.ok ((k, c) :: rest)
    | none, _ => Except.error (PyErr.keyError k)
    | some _, Except.error e => Except.error e

/-- Python `df[k]` / `series[k]` on a single label: KeyError when absent. -/
def getCol {α : Type} (d : List (String × α)) (k : String) : Except PyErr α :=
  match lookupKey k d with
  | some v => Except.ok v
  | none => Except.error (PyErr.keyError k)

/-- The instance state the methods of `EconAnalyzer` manipulate: the held
dataset `self.data` and the model registry `self.models` (econ_analysis.py
lines 21–22).  The methods below are translated from the class's method
bodies; whether an instance can ever be created at all is settled separately
by the class-body evaluation (`econAnalyzerNew`). -/
structure EconAnalyzer where
  data : Frame ℚ
  models : List (String × FittedModel)
  deriving DecidableEq, Repr

/-- Module-level global names of econ_analysis.py in scope when the
`class EconAnalyzer` statement executes (the imports of lines 3–8). -/
def moduleGlobals : List String := ["Optional", "Any", "np", "pd", "sm", "stats"]

/-- Python name resolution at class-body level: the class body's own bindings,
then the module globals (builtins hold none of the names of interest). -/
def resolvesAtClassLevel (classBindings : List String) (x : String) : Bool :=
  classBindings.contains x || moduleGlobals.contains x

/-- Evaluating the class body of `EconAnalyzer` (econ_analysis.py lines
11–122).  The `def __init__` statement (line 14) binds `__init__`; then the
statement `self.models: dict[str, Any] = ...` sits at class-body indentation
(line 22, four spaces), so it executes as part of the class body and must
resolve the name `self`, which is bound nowhere at that level.  On success the
remaining method definitions would be bound; on failure the class object is
never created. -/
def evalEconAnalyzerClassBody : Except PyErr (List String) :=
  let bindings := ["__init__"]
  if resolvesAtClassLevel bindings "self" then
    Except.ok (bindings ++
      ["mincer_regression", "calculate_returns_to_education", "descriptive_stats"])
  else
    Except.error (PyErr.nameError "self")

/-- Constructing `EconAnalyzer(data)`: the class object must exist (its body
is evaluated once, at import) before `__init__` can run and bind
`self.data = data` (line 21).  The success branch is unreachable; the instance
state it would build is the intended one (note that even then line 22 never
attaches a `models` attribute to instances, since it is not inside
`__init__`). -/
def econAnalyzerNew (data : Frame ℚ) : Except PyErr EconAnalyzer :=
  match evalEconAnalyzerClassBody with
  | Except.error e => Except.error e
  | Except.ok _ => Except.ok { data := data, models := [] }

/-- `EconAnalyzer.mincer_regression` (econ_analysis.py lines 24–61), as a
state transformer on the instance state: optionally derives the squared
experience column and stores it in the dataset, selects the regressors, adds
the intercept, hands the design to the OLS black box, and registers the fitted
result in the model registry under `mincer_` ++ dependent_var. -/
def mincer_regression (a : EconAnalyzer) (dependent_var education_var experience_var : String)
    (add_experience_squared : Bool) : Except PyErr (EconAnalyzer × FittedModel) :=
  let X_vars := [education_var, experience_var]
  let prep : Except PyErr (EconAnalyzer × List String) :=
    if add_experience_squared then
      match lookupKey experience_var a.data with
      | some expCol =>
          Except.ok
            ({ a with
                data := setKey (experience_var ++ "_squared")
                  (expCol.map (fun v => v ^ 2)) a.data },
              X_vars ++ [experience_var ++ "_squared"])
      | none => Except.error (PyErr.keyError experience_var)
    else Except.ok (a, X_vars)
  match prep with
  | Except.error e => Except.error e
  | Except.ok (a1, xv) =>
    match selectCols a1.data xv with
    | Except.error e => Except.error e
    | Except.ok Xsel =>
      match lookupKey dependent_var a1.data with
      | some y =>
        let model := olsFit (add_constant Xsel) y
        Except.ok
          ({ a1 with models := setKey ("mincer_" ++ dependent_var) model a1.models }, model)
      | none => Except.error (PyErr.keyError dependent_var)

/-- A Python value stored in the returns-to-education dict: a number or the
boolean significance flag. -/
inductive PyVal where
  | num (q : ℚ)
  | flag (b : Bool)
  deriving DecidableEq, Repr

/-- `EconAnalyzer.calculate_returns_to_education` (econ_analysis.py lines
63–90): reads the four per-regressor statistics for `education_var` off the
fitted model and builds the six-field result dict.  The method body never
touches `self`; the instance state is threaded unchanged to make that
explicit. -/
def calculate_returns_to_education (a : EconAnalyzer) (model : FittedModel)
    (education_var : String) :
    Except PyErr (EconAnalyzer × List (String × PyVal)) :=
  match getCol model.params education_var with
  | Except.error e => Except.error e
  | Except.ok coef =>
    match getCol model.bse education_var with
    | Except.error e => Except.error e
    | Except.ok std_err =>
      match getCol model.tvalues education_var with
      | Except.error e => Except.error e
      | Except.ok t_stat =>
        match getCol model.pvalues education_var with
        | Except.error e => Except.error e
        | Except.ok p_value =>
            Except.ok (a,
              [("coefficient", PyVal.num coef),
               ("return_percent", PyVal.num (coef * 100)),
               ("std_error", PyVal.num std_err),
               ("t_statistic", PyVal.num t_stat),
               ("p_value", PyVal.num p_value),
               ("significant_5pct", PyVal.flag (decide (p_value < (0.05 : ℚ))))])

/-- The inner dict built for one model by `robust_regression_summary`
(econ_analysis.py lines 188–196): the seven goodness-of-fit statistics. -/
def summaryRow (m : FittedModel) : List (String × ℚ) :=
  [("R-squared", m.rsquared),
   ("Adj R-squared", m.rsquared_adj),
   ("F-statistic", m.fvalue),
   ("F p-value", m.f_pvalue),
   ("AIC", m.aic),
   ("BIC", m.bic),
   ("N observations", m.nobs)]

/-- `robust_regression_summary` (econ_analysis.py lines 168–198): validates
that the two sequences have equal length, then fills a dict keyed by model
name (so a repeated name overwrites the earlier entry in place) and returns
its rows via `pd.DataFrame(summary_data).T`: one row per dict key in insertion
order. -/
def robust_regression_summary (models : List FittedModel) (model_names : List String) :
    Except PyErr (List (String × List (String × ℚ))) :=
  if models.length ≠ model_names.length then
    Except.error (PyErr.valueError "models and model_names must have the same length")
  else
    Except.ok ((models.zip model_names).foldl
      (fun d p => setKey p.2 (summaryRow p.1) d) [])

/-- Modelled from the spec: the global pseudo-random state of numpy's legacy
generator.  `entropy` is the deterministic stream of unit-interval draws the
generator yields after its most recent seeding (numpy's underlying generator
produces doubles in `[0, 1)`), `pos` how many draws have been consumed.  One
output value consumes one unit draw. -/
structure GlobalRng where
  entropy : ℕ → ℝ
  pos : ℕ

/-- Modelled from the spec: the stream of unit draws produced after
`np.random.seed(s)` — a deterministic function of the seed alone, so that two
identically seeded runs read identical draws.  The concrete values are a
stand-in for the Mersenne Twister output; only determinism in `s` and the
unit range are ever used. -/
noncomputable def seedStream (s : ℕ) : ℕ → ℝ := fun i => 1 / ((s : ℝ) + (i : ℝ) + 2)

/-- A stream of unit-interval draws, as numpy's generator produces. -/
def unitRange (u : ℕ → ℝ) : Prop := ∀ i, 0 ≤ u i ∧ u i < 1

theorem seedStream_unitRange (s : ℕ) : unitRange (seedStream s) := by
  intro i
  unfold seedStream
  constructor
  · positivity
  · rw [div_lt_one (by positivity)]
    have h1 : (0 : ℝ) ≤ (s : ℝ) := Nat.cast_nonneg s
    have h2 : (0 : ℝ) ≤ (i : ℝ) := Nat.cast_nonneg i
    linarith

/-- The `if seed is not None: np.random.seed(seed)` prologue (econ_analysis.py
lines 139–140): seeding replaces the global stream by a function of the seed
alone and rewinds the position. -/
noncomputable def applySeed (seed : Option ℕ) (g : GlobalRng) : GlobalRng :=
  match seed with
  | some s => { entropy := seedStream s, pos := 0 }
  | none => g

/-- Modelled from the spec: `np.clip(x, lo, hi)` elementwise, i.e.
`min (max x lo) hi`. -/
def clip (lo hi x : ℝ) : ℝ := min (max x lo) hi

theorem le_clip {lo hi : ℝ} (h : lo ≤ hi) (x : ℝ) : lo ≤ clip lo hi x :=
  le_min (le_max_right x lo) h

theorem clip_le (lo hi x : ℝ) : clip lo hi x ≤ hi :=
  min_le_right _ hi

/-- Modelled from the spec: `np.random.normal(mean, sd, ·)` maps one unit draw
to one normal variate; the inverse-CDF transform itself is a black box, the
stand-in is affine.  No theorem uses anything about it beyond determinism. -/
noncomputable def normalOf (mean sd u : ℝ) : ℝ := mean + sd * (2 * u - 1)

/-- Modelled from the spec: `np.random.uniform(lo, hi, ·)` maps one unit draw
`u ∈ [0,1)` to `lo + (hi − lo) * u ∈ [lo, hi)`. -/
noncomputable def uniformOf (lo hi u : ℝ) : ℝ := lo + (hi - lo) * u

/-- Row `i` of the `education` column: a normal(12, 3) draw clipped into
[6, 20] (econ_analysis.py lines 143–144).  Consumes unit draws 0..n−1 of the
post-seed stream. -/
noncomputable def eduAt (g : GlobalRng) (i : ℕ) : ℝ :=
  clip 6 20 (normalOf 12 3 (g.entropy (g.pos + i)))

/-- Row `i` of the `experience` column: a uniform(0, 40) draw
(econ_analysis.py line 146).  Consumes unit draws n..2n−1. -/
noncomputable def expAt (g : GlobalRng) (n i : ℕ) : ℝ :=
  uniformOf 0 40 (g.entropy (g.pos + n + i))

/-- Row `i` of the `age` column: clipped-education + experience +
normal(6, 2), clipped into [18, 70] (econ_analysis.py lines 147–148).
Consumes unit draws 2n..3n−1. -/
noncomputable def ageAt (g : GlobalRng) (n i : ℕ) : ℝ :=
  clip 18 70 (eduAt g i + expAt g n i + normalOf 6 2 (g.entropy (g.pos + 2 * n + i)))

/-- Row `i`'s disturbance: the normal(0, 0.3) draw added to the Mincer mean
(econ_analysis.py line 155).  Consumes unit draws 3n..4n−1. -/
noncomputable def epsAt (g : GlobalRng) (n i : ℕ) : ℝ :=
  normalOf 0 0.3 (g.entropy (g.pos + 3 * n + i))

/-- Row `i` of the `log_wage` column (econ_analysis.py lines 151–155): the
Mincer mean in the clipped education and the experience values, plus the
disturbance. -/
noncomputable def logWageAt (g : GlobalRng) (n i : ℕ) : ℝ :=
  2.5 + 0.1 * eduAt g i + 0.05 * expAt g n i - 0.001 * expAt g n i ^ 2 + epsAt g n i

/-- Row `i` of the `wage` column (econ_analysis.py line 157). -/
noncomputable def wageAt (g : GlobalRng) (n i : ℕ) : ℝ :=
  Real.exp (logWageAt g n i)

/-- `simulate_wage_data` (econ_analysis.py lines 125–165).  Drawing a vector
of `n_obs` values fails in numpy when `n_obs` is negative ("negative
dimensions are not allowed"); otherwise the four draws consume 4·n unit draws
of the (possibly reseeded) global stream and the five columns are assembled
in the source's order. -/
noncomputable def simulate_wage_data (n_obs : ℤ) (seed : Option ℕ) (g0 : GlobalRng) :
    Except PyErr (Frame ℝ × GlobalRng) :=
  if n_obs < 0 then Except.error (PyErr.valueError "negative dimensions are not allowed")
  else
    let g := applySeed seed g0
    let n := n_obs.toNat
    Except.ok
      ([("wage", (List.range n).map (wageAt g n)),
        ("log_wage", (List.range n).map (logWageAt g n)),
        ("education", (List.range n).map (eduAt g)),
        ("experience", (List.range n).map (expAt g n)),
        ("age", (List.range n).map (ageAt g n))],
       { g with pos := g.pos + 4 * n })

/-! ## Helper lemmas -/

theorem map_snd_zip_eq {α β : Type} :
    ∀ (l₁ : List α) (l₂ : List β), l₁.length = l₂.length →
      (l₁.zip l₂).map Prod.snd = l₂ := by
  intro l₁
  induction l₁ with
  | nil =>
      intro l₂ h
      cases l₂ with
      | nil => rfl
      | cons b t => simp at h
  | cons a t ih =>
      intro l₂ h
      cases l₂ with
      | nil => simp at h
      | cons b t₂ =>
          simp only [List.length_cons, Nat.add_right_cancel_iff] at h
          simp [ih t₂ h]

theorem foldl_setKey_nodup {α β : Type} (f : β → α) :
    ∀ (l : List (β × String)) (acc : List (String × α)),
      (l.map Prod.snd).Nodup →
      (∀ p ∈ l, lookupKey p.2 acc = none) →
      l.foldl (fun d p => setKey p.2 (f p.1) d) acc =
        acc ++ l.map (fun p => (p.2, f p.1)) := by
  intro l
  induction l with
  | nil => intro acc _ _; simp
  | cons hd tl ih =>
      intro acc hnd hfresh
      obtain ⟨b, k⟩ := hd
      simp only [List.map_cons, List.nodup_cons] at hnd
      have hk : lookupKey k acc = none := hfresh (b, k) (List.mem_cons_self _ _)
      have step : setKey k (f b) acc = acc ++ [(k, f b)] :=
        setKey_absent_append k (f b) acc hk
      have hfresh' : ∀ p ∈ tl, lookupKey p.2 (acc ++ [(k, f b)]) = none := by
        intro p hp
        have hpk : ¬k = p.2 := by
          intro hpe
          exact hnd.1 (hpe ▸ List.mem_map_of_mem Prod.snd hp)
        rw [lookupKey_append_none p.2 acc [(k, f b)]
          (hfresh p (List.mem_cons_of_mem _ hp))]
        simp [lookupKey, hpk]
      simp only [List.foldl_cons]
      rw [step, ih (acc ++ [(k, f b)]) hnd.2 hfresh']
      simp

/-! ## The claims -/

/-- C1: For every DataFrame `d`, constructing `EconAnalyzer(d)` never
succeeds: the model-registry initialization sits at class-body indentation
rather than inside `__init__`, so evaluating the class body references the
unbound name `self` and raises a NameError; consequently no `EconAnalyzer`
instance, and hence no model registry, is ever created. -/
theorem econAnalyzerNew_always_fails (d : Frame ℚ) :
    econAnalyzerNew d = Except.error (PyErr.nameError "self") := rfl

/-- A distinguishable concrete fitted-model record (all statistics equal to
`q`), used to exercise the aggregator on explicit inputs. -/
def constModel (q : ℚ) : FittedModel :=
  { params := [], bse := [], tvalues := [], pvalues := [],
    rsquared := q, rsquared_adj := q, fvalue := q, f_pvalue := q,
    aic := q, bic := q, nobs := q }

/-- C2 counterexample: on two models paired with the repeated name `a`, the
aggregator returns a single row (the dict entry for `a`, overwritten by the
second model's statistics), not two coexisting rows — refuting the claim that
both rows remain present with N = 2 inputs. -/
theorem robust_summary_dup_overwrites :
    robust_regression_summary [constModel 1, constModel 2] ["a", "a"] =
      Except.ok [("a", summaryRow (constModel 2))] ∧
    [("a", summaryRow (constModel 2))].length ≠ 2 := by
  constructor
  · rfl
  · decide

/-- C2 (amended): with equal lengths and pairwise-distinct names the
aggregator returns exactly N rows, one per (model, name) pair in input order,
each labeled by its name; but a repeated name does not yield a second row —
the later pair overwrites the earlier row with that label in place. -/
theorem robust_summary_rows :
    (∀ (models : List FittedModel) (names : List String),
        models.length = names.length → names.Nodup →
        robust_regression_summary models names =
          Except.ok ((models.zip names).map (fun p => (p.2, summaryRow p.1)))) ∧
    (∀ (m₁ m₂ : FittedModel) (a : String),
        robust_regression_summary [m₁, m₂] [a, a] =
          Except.ok [(a, summaryRow m₂)]) := by
  constructor
  · intro models names hlen hnd
    unfold robust_regression_summary
    rw [if_neg (by simp [hlen])]
    rw [foldl_setKey_nodup summaryRow (models.zip names) []
      (by rw [map_snd_zip_eq models names hlen]; exact hnd)
      (by intro p _; rfl)]
    simp
  · intro m₁ m₂ a
    unfold robust_regression_summary
    rw [if_neg (by simp)]
    simp [setKey]

/-- Witness for C2's amended theorem: a distinct-names run returns exactly the
two labeled rows in order, and a repeated-name run returns the single
overwritten row. -/
theorem robust_summary_rows_witness :
    robust_regression_summary [constModel 1, constModel 2] ["a", "b"] =
      Except.ok [("a", summaryRow (constModel 1)), ("b", summaryRow (constModel 2))] ∧
    robust_regression_summary [constModel 3, constModel 4] ["c", "c"] =
      Except.ok [("c", summaryRow (constModel 4))] :=
  ⟨by
      have h := robust_summary_rows.1 [constModel 1, constModel 2] ["a", "b"]
        rfl (by decide)
      simpa using h,
    robust_summary_rows.2 (constModel 3) (constModel 4) "c"⟩

/-- C3 counterexample: an observation count of 0 is not positive, yet
`simulate_wage_data(0, seed)` succeeds (numpy draws empty arrays), refuting
the claim that every non-positive count fails. -/
theorem simulate_zero_succeeds :
    ((0 : ℤ) ≤ 0) ∧ succeeds (simulate_wage_data 0 (some 42) ⟨fun _ => 0, 0⟩) = true :=
  ⟨le_refl 0, rfl⟩

/-- C3 (amended): `simulate_wage_data(n, seed)` fails — with numpy's
negative-dimensions ValueError, the simulator's only error condition — if and
only if `n` is negative; every `n ≥ 0` (including `n = 0`, which yields the
empty dataset) succeeds. -/
theorem simulate_error_iff_negative (n : ℤ) (seed : Option ℕ) (g : GlobalRng) :
    simulate_wage_data n seed g =
      Except.error (PyErr.valueError "negative dimensions are not allowed") ↔
    n < 0 := by
  unfold simulate_wage_data
  by_cases h : n < 0
  · simp [h]
  · simp [h]

/-- C10: `robust_regression_summary(models, names)` raises the
invalid-argument ValueError if and only if the two input sequences have
different lengths; an error result carries no rows, and the aggregator is a
pure function, so nothing else is mutated. -/
theorem robust_summary_error_iff (models : List FittedModel) (names : List String) :
    robust_regression_summary models names =
      Except.error (PyErr.valueError "models and model_names must have the same length") ↔
    models.length ≠ names.length := by
  unfold robust_regression_summary
  by_cases h : models.length = names.length
  · simp [h]
  · simp [h]

theorem selectCols_ok_names (df : Frame ℚ) :
    ∀ (ks : List String) (Xsel : Frame ℚ),
      selectCols df ks = Except.ok Xsel → Xsel.map Prod.fst = ks := by
  intro ks
  induction ks with
  | nil =>
      intro Xsel h
      simp only [selectCols, Except.ok.injEq] at h
      simp [← h]
  | cons k t ih =>
      intro Xsel h
      simp only [selectCols] at h
      cases hk : lookupKey k df with
      | none => rw [hk] at h; cases h
      | some c =>
          rw [hk] at h
          cases ht : selectCols df t with
          | error err => rw [ht] at h; cases h
          | ok rest =>
              rw [ht] at h
              simp only [Except.ok.injEq] at h
              simp [← h, ih rest ht]

theorem add_constant_names (X : Frame ℚ) :
    (add_constant X).map Prod.fst = "const" :: X.map Prod.fst := rfl

theorem olsFit_params_names (X : Frame ℚ) (y : List ℚ) :
    (olsFit X y).params.map Prod.fst = X.map Prod.fst := by
  simp [olsFit]

/-- Inversion of a successful `mincer_regression` call with the squared term:
the experience column existed, the squared column was stored in the dataset
before the fit, the design was its selection plus the intercept, and the
result was registered. -/
theorem mincer_ok_inv_true (a : EconAnalyzer) (d e x : String)
    (a' : EconAnalyzer) (m : FittedModel)
    (h : mincer_regression a d e x true = Except.ok (a', m)) :
    ∃ expCol Xsel y,
      lookupKey x a.data = some expCol ∧
      selectCols (setKey (x ++ "_squared") (expCol.map (fun v => v ^ 2)) a.data)
        [e, x, x ++ "_squared"] = Except.ok Xsel ∧
      lookupKey d (setKey (x ++ "_squared") (expCol.map (fun v => v ^ 2)) a.data) = some y ∧
      m = olsFit (add_constant Xsel) y ∧
      a' = { data := setKey (x ++ "_squared") (expCol.map (fun v => v ^ 2)) a.data,
             models := setKey ("mincer_" ++ d) m a.models } := by
  simp only [mincer_regression, if_true, List.cons_append, List.nil_append] at h
  cases hx : lookupKey x a.data with
  | none => rw [hx] at h; cases h
  | some expCol =>
      rw [hx] at h
      dsimp only at h
      cases hsel : selectCols (setKey (x ++ "_squared") (expCol.map (fun v => v ^ 2)) a.data)
          [e, x, x ++ "_squared"] with
      | error err => rw [hsel] at h; cases h
      | ok Xsel =>
          rw [hsel] at h
          cases hy : lookupKey d (setKey (x ++ "_squared") (expCol.map (fun v => v ^ 2)) a.data) with
          | none => rw [hy] at h; cases h
          | some y =>
              rw [hy] at h
              simp only [Except.ok.injEq, Prod.mk.injEq] at h
              refine ⟨expCol, Xsel, y, rfl, hsel, hy, h.2.symm, ?_⟩
              rw [← h.2]
              exact h.1.symm

/-- Inversion of a successful `mincer_regression` call without the squared
term: the dataset is untouched, the design is the two regressors plus the
intercept, and the result was registered. -/
theorem mincer_ok_inv_false (a : EconAnalyzer) (d e x : String)
    (a' : EconAnalyzer) (m : FittedModel)
    (h : mincer_regression a d e x false = Except.ok (a', m)) :
    ∃ Xsel y,
      selectCols a.data [e, x] = Except.ok Xsel ∧
      lookupKey d a.data = some y ∧
      m = olsFit (add_constant Xsel) y ∧
      a' = { data := a.data, models := setKey ("mincer_" ++ d) m a.models } := by
  simp only [mincer_regression, Bool.false_eq_true, if_false] at h
  cases hsel : selectCols a.data [e, x] with
  | error err => rw [hsel] at h; cases h
  | ok Xsel =>
      rw [hsel] at h
      cases hy : lookupKey d a.data with
      | none => rw [hy] at h; cases h
      | some y =>
          rw [hy] at h
          simp only [Except.ok.injEq, Prod.mk.injEq] at h
          refine ⟨Xsel, y, rfl, rfl, h.2.symm, ?_⟩
          rw [← h.2]
          exact h.1.symm

/-- On any successful `mincer_regression` call, the new registry is exactly
the old one with the generated key set to the returned model. -/
theorem mincer_ok_models (a : EconAnalyzer) (d e x : String) (b : Bool)
    (a' : EconAnalyzer) (m : FittedModel)
    (h : mincer_regression a d e x b = Except.ok (a', m)) :
    a'.models = setKey ("mincer_" ++ d) m a.models := by
  cases b with
  | true =>
      obtain ⟨expCol, Xsel, y, _, _, _, _, ha⟩ := mincer_ok_inv_true a d e x a' m h
      rw [ha]
  | false =>
      obtain ⟨Xsel, y, _, _, _, ha⟩ := mincer_ok_inv_false a d e x a' m h
      rw [ha]

/-- C4: After a successful call to `mincer_regression` with dependent
variable `d`, the registry contains the key `mincer_` ++ d mapped to the
result just returned, any prior entry under that key having been overwritten
in place; the registry's size increases by exactly one if the key was absent
and is unchanged if it was present, and every other entry is unmodified. -/
theorem mincer_registry (a : EconAnalyzer) (d e x : String) (b : Bool)
    (a' : EconAnalyzer) (m : FittedModel)
    (h : mincer_regression a d e x b = Except.ok (a', m)) :
    lookupKey ("mincer_" ++ d) a'.models = some m ∧
    a'.models = setKey ("mincer_" ++ d) m a.models ∧
    (∀ k, k ≠ "mincer_" ++ d → lookupKey k a'.models = lookupKey k a.models) ∧
    (lookupKey ("mincer_" ++ d) a.models = none →
      a'.models.length = a.models.length + 1) ∧
    ((lookupKey ("mincer_" ++ d) a.models).isSome →
      a'.models.length = a.models.length) := by
  have hm := mincer_ok_models a d e x b a' m h
  refine ⟨?_, hm, ?_, ?_, ?_⟩
  · rw [hm]; exact lookupKey_setKey_self _ m a.models
  · intro k hk
    rw [hm]; exact lookupKey_setKey_ne _ k m hk a.models
  · intro habs
    rw [hm]; exact length_setKey_absent _ m a.models habs
  · intro hpres
    rw [hm]; exact length_setKey_present _ m a.models hpres

/-- A concrete dataset with the three Mincer columns, for exercising the
analyzer methods on explicit inputs. -/
def witnessData : Frame ℚ :=
  [("log_wage", [3, 4]), ("education", [1, 2]), ("experience", [2, 1])]

/-- A concrete analyzer instance state over `witnessData` with an empty
registry. -/
def witnessAnalyzer : EconAnalyzer := { data := witnessData, models := [] }

/-- The concrete outcome of a squared-term Mincer fit on `witnessAnalyzer`. -/
def witnessPair : EconAnalyzer × FittedModel :=
  ((mincer_regression witnessAnalyzer "log_wage" "education" "experience" true).toOption).getD
    (witnessAnalyzer, constModel 0)

/-- Witness for C4: the concrete squared-term fit succeeds, registers the
returned model under `mincer_log_wage`, and grows the empty registry to
size one. -/
theorem mincer_registry_witness :
    lookupKey "mincer_log_wage" witnessPair.1.models = some witnessPair.2 ∧
    witnessPair.1.models.length = witnessAnalyzer.models.length + 1 :=
  have h : mincer_regression witnessAnalyzer "log_wage" "education" "experience" true =
      Except.ok (witnessPair.1, witnessPair.2) := rfl
  ⟨(mincer_registry witnessAnalyzer "log_wage" "education" "experience" true
      witnessPair.1 witnessPair.2 h).1,
   (mincer_registry witnessAnalyzer "log_wage" "education" "experience" true
      witnessPair.1 witnessPair.2 h).2.2.2.1 rfl⟩

/-- C8: On a successful call with `add_experience_squared` true, the dataset
gains (overwriting if already present) the column named
experience_var ++ "_squared", equal to the elementwise square of the
experience column; it is included as a regressor, and the fitted model has
exactly 4 coefficients named intercept, education, experience, experience
squared.  With the flag false the fitted model has exactly 3 coefficients
and the dataset is unchanged. -/
theorem mincer_design (a : EconAnalyzer) (d e x : String) :
    (∀ (a' : EconAnalyzer) (m : FittedModel),
        mincer_regression a d e x true = Except.ok (a', m) →
        m.params.length = 4 ∧
        m.params.map Prod.fst = ["const", e, x, x ++ "_squared"] ∧
        ∃ expCol, lookupKey x a.data = some expCol ∧
          a'.data = setKey (x ++ "_squared") (expCol.map (fun v => v ^ 2)) a.data) ∧
    (∀ (a' : EconAnalyzer) (m : FittedModel),
        mincer_regression a d e x false = Except.ok (a', m) →
        m.params.length = 3 ∧
        m.params.map Prod.fst = ["const", e, x] ∧
        a'.data = a.data) := by
  constructor
  · intro a' m h
    obtain ⟨expCol, Xsel, y, hx, hsel, _, hmod, ha⟩ := mincer_ok_inv_true a d e x a' m h
    have hnames : m.params.map Prod.fst = ["const", e, x, x ++ "_squared"] := by
      rw [hmod, olsFit_params_names, add_constant_names, selectCols_ok_names _ _ _ hsel]
    refine ⟨?_, hnames, expCol, hx, by rw [ha]⟩
    have := congrArg List.length hnames
    simpa using this
  · intro a' m h
    obtain ⟨Xsel, y, hsel, _, hmod, ha⟩ := mincer_ok_inv_false a d e x a' m h
    have hnames : m.params.map Prod.fst = ["const", e, x] := by
      rw [hmod, olsFit_params_names, add_constant_names, selectCols_ok_names _ _ _ hsel]
    refine ⟨?_, hnames, by rw [ha]⟩
    have := congrArg List.length hnames
    simpa using this

/-- The concrete outcome of a no-squared-term Mincer fit on
`witnessAnalyzer`. -/
def witnessPairNoSq : EconAnalyzer × FittedModel :=
  ((mincer_regression witnessAnalyzer "log_wage" "education" "experience" false).toOption).getD
    (witnessAnalyzer, constModel 0)

/-- Witness for C8: on the concrete analyzer both calls succeed, with 4 and 3
coefficients respectively. -/
theorem mincer_design_witness :
    witnessPair.2.params.length = 4 ∧ witnessPairNoSq.2.params.length = 3 :=
  have ht : mincer_regression witnessAnalyzer "log_wage" "education" "experience" true =
      Except.ok (witnessPair.1, witnessPair.2) := rfl
  have hf : mincer_regression witnessAnalyzer "log_wage" "education" "experience" false =
      Except.ok (witnessPairNoSq.1, witnessPairNoSq.2) := rfl
  ⟨((mincer_design witnessAnalyzer "log_wage" "education" "experience").1
      witnessPair.1 witnessPair.2 ht).1,
   ((mincer_design witnessAnalyzer "log_wage" "education" "experience").2
      witnessPairNoSq.1 witnessPairNoSq.2 hf).1⟩

/-- C9: A successful `calculate_returns_to_education` call returns the
analyzer state unchanged (the method never touches `self`) and a record with
exactly the six named fields, where the coefficient, standard error,
t-statistic and p-value are read off the model at `education_var`,
return_percent equals coefficient * 100 exactly, and significant_5pct is true
if and only if p_value < 0.05.  The model record itself is taken and returned
by value — nothing of it is written. -/
theorem returns_record (a : EconAnalyzer) (m : FittedModel) (v : String)
    (a' : EconAnalyzer) (r : List (String × PyVal))
    (h : calculate_returns_to_education a m v = Except.ok (a', r)) :
    a' = a ∧
    r.map Prod.fst = ["coefficient", "return_percent", "std_error",
      "t_statistic", "p_value", "significant_5pct"] ∧
    ∃ coef se t p,
      lookupKey v m.params = some coef ∧
      lookupKey v m.bse = some se ∧
      lookupKey v m.tvalues = some t ∧
      lookupKey v m.pvalues = some p ∧
      lookupKey "coefficient" r = some (PyVal.num coef) ∧
      lookupKey "return_percent" r = some (PyVal.num (coef * 100)) ∧
      lookupKey "std_error" r = some (PyVal.num se) ∧
      lookupKey "t_statistic" r = some (PyVal.num t) ∧
      lookupKey "p_value" r = some (PyVal.num p) ∧
      (lookupKey "significant_5pct" r = some (PyVal.flag true) ↔ p < (0.05 : ℚ)) := by
  unfold calculate_returns_to_education at h
  cases hc : getCol m.params v with
  | error err => rw [hc] at h; cases h
  | ok coef =>
  rw [hc] at h
  cases hs : getCol m.bse v with
  | error err => rw [hs] at h; cases h
  | ok se =>
  rw [hs] at h
  cases ht : getCol m.tvalues v with
  | error err => rw [ht] at h; cases h
  | ok t =>
  rw [ht] at h
  cases hp : getCol m.pvalues v with
  | error err => rw [hp] at h; cases h
  | ok p =>
      rw [hp] at h
      simp only [Except.ok.injEq, Prod.mk.injEq] at h
      obtain ⟨ha, hr⟩ := h
      have hc' : lookupKey v m.params = some coef := by
        unfold getCol at hc
        cases hl : lookupKey v m.params <;> rw [hl] at hc <;> simp_all
      have hs' : lookupKey v m.bse = some se := by
        unfold getCol at hs
        cases hl : lookupKey v m.bse <;> rw [hl] at hs <;> simp_all
      have ht' : lookupKey v m.tvalues = some t := by
        unfold getCol at ht
        cases hl : lookupKey v m.tvalues <;> rw [hl] at ht <;> simp_all
      have hp' : lookupKey v m.pvalues = some p := by
        unfold getCol at hp
        cases hl : lookupKey v m.pvalues <;> rw [hl] at hp <;> simp_all
      subst ha
      refine ⟨rfl, by simp [← hr], coef, se, t, p, hc', hs', ht', hp', ?_⟩
      rw [← hr]
      refine ⟨?_, ?_, ?_, ?_, ?_, ?_⟩ <;> simp [lookupKey]

/-- The concrete outcome of reading returns to education off the concrete
fitted model of `witnessPair`. -/
def witnessReturns : EconAnalyzer × List (String × PyVal) :=
  ((calculate_returns_to_education witnessAnalyzer witnessPair.2 "education").toOption).getD
    (witnessAnalyzer, [])

/-- Witness for C9: on the concrete fitted model the call succeeds, leaves
the analyzer untouched and yields exactly the six named fields. -/
theorem returns_record_witness :
    witnessReturns.1 = witnessAnalyzer ∧
    witnessReturns.2.map Prod.fst = ["coefficient", "return_percent", "std_error",
      "t_statistic", "p_value", "significant_5pct"] :=
  have h : calculate_returns_to_education witnessAnalyzer witnessPair.2 "education" =
      Except.ok (witnessReturns.1, witnessReturns.2) := rfl
  ⟨(returns_record witnessAnalyzer witnessPair.2 "education"
      witnessReturns.1 witnessReturns.2 h).1,
   (returns_record witnessAnalyzer witnessPair.2 "education"
      witnessReturns.1 witnessReturns.2 h).2.1⟩

theorem applySeed_unitRange (seed : Option ℕ) (g : GlobalRng) (hu : unitRange g.entropy) :
    unitRange (applySeed seed g).entropy := by
  cases seed with
  | none => exact hu
  | some s => exact seedStream_unitRange s

/-- C5: For every positive observation count and every seed, two calls of
`simulate_wage_data` with the same count and seed produce identical datasets,
whatever the prior global random state of either call: seeding replaces that
state by a function of the seed alone. -/
theorem simulate_seed_deterministic (n : ℤ) (s : ℕ) (g₁ g₂ : GlobalRng) (hn : 0 < n) :
    simulate_wage_data n (some s) g₁ = simulate_wage_data n (some s) g₂ ∧
    succeeds (simulate_wage_data n (some s) g₁) = true := by
  constructor
  · rfl
  · unfold simulate_wage_data
    rw [if_neg (by omega : ¬n < 0)]
    rfl

/-- A concrete global random state: all unit draws zero. -/
noncomputable def wRngA : GlobalRng := { entropy := fun _ => 0, pos := 5 }

/-- A second, different concrete global random state. -/
noncomputable def wRngB : GlobalRng := { entropy := fun i => (i : ℝ) / ((i : ℝ) + 1), pos := 7 }

/-- Witness for C5: with count 1 and seed 3, runs from two different prior
states coincide and succeed. -/
theorem simulate_seed_deterministic_witness :
    ((0 : ℤ) < 1) ∧
    (simulate_wage_data 1 (some 3) wRngA = simulate_wage_data 1 (some 3) wRngB ∧
      succeeds (simulate_wage_data 1 (some 3) wRngA) = true) :=
  ⟨by norm_num, simulate_seed_deterministic 1 3 wRngA wRngB (by norm_num)⟩

/-- C6: For every positive observation count, a successful
`simulate_wage_data` call returns exactly the five columns wage, log_wage,
education, experience, age in that order, each of exactly `n` values (total —
the generator never produces a missing value), with every education value in
[6, 20], every experience value in [0, 40], every age value in [18, 70] and
every wage strictly positive. -/
theorem simulate_shape_bounds (n_obs : ℤ) (seed : Option ℕ) (g : GlobalRng)
    (hn : 0 < n_obs) (hu : unitRange g.entropy)
    (df : Frame ℝ) (g' : GlobalRng)
    (h : simulate_wage_data n_obs seed g = Except.ok (df, g')) :
    df.map Prod.fst = ["wage", "log_wage", "education", "experience", "age"] ∧
    (∀ c ∈ df, c.2.length = n_obs.toNat) ∧
    (∀ ed, lookupKey "education" df = some ed → ∀ v ∈ ed, 6 ≤ v ∧ v ≤ 20) ∧
    (∀ ex, lookupKey "experience" df = some ex → ∀ v ∈ ex, 0 ≤ v ∧ v ≤ 40) ∧
    (∀ ag, lookupKey "age" df = some ag → ∀ v ∈ ag, 18 ≤ v ∧ v ≤ 70) ∧
    (∀ w, lookupKey "wage" df = some w → ∀ v ∈ w, 0 < v) := by
  have hneg : ¬n_obs < 0 := by omega
  unfold simulate_wage_data at h
  rw [if_neg hneg] at h
  simp only [Except.ok.injEq, Prod.mk.injEq] at h
  obtain ⟨hdf, -⟩ := h
  subst hdf
  have hur := applySeed_unitRange seed g hu
  refine ⟨rfl, ?_, ?_, ?_, ?_, ?_⟩
  · intro c hc
    simp only [List.mem_cons, List.not_mem_nil, or_false] at hc
    rcases hc with rfl | rfl | rfl | rfl | rfl <;>
      simp [List.length_map, List.length_range]
  · intro ed hed
    have : ed = (List.range n_obs.toNat).map (eduAt (applySeed seed g)) := by
      have hl : lookupKey "education"
          ([("wage", (List.range n_obs.toNat).map (wageAt (applySeed seed g) n_obs.toNat)),
            ("log_wage", (List.range n_obs.toNat).map (logWageAt (applySeed seed g) n_obs.toNat)),
            ("education", (List.range n_obs.toNat).map (eduAt (applySeed seed g))),
            ("experience", (List.range n_obs.toNat).map (expAt (applySeed seed g) n_obs.toNat)),
            ("age", (List.range n_obs.toNat).map (ageAt (applySeed seed g) n_obs.toNat))] : Frame ℝ) =
          some ((List.range n_obs.toNat).map (eduAt (applySeed seed g))) := rfl
      rw [hl] at hed
      exact (Option.some.injEq _ _ ▸ hed).symm
    subst this
    intro v hv
    obtain ⟨i, -, rfl⟩ := List.mem_map.mp hv
    exact ⟨le_clip (by norm_num) _, clip_le _ _ _⟩
  · intro ex hex
    have : ex = (List.range n_obs.toNat).map (expAt (applySeed seed g) n_obs.toNat) := by
      have hl : lookupKey "experience"
          ([("wage", (List.range n_obs.toNat).map (wageAt (applySeed seed g) n_obs.toNat)),
            ("log_wage", (List.range n_obs.toNat).map (logWageAt (applySeed seed g) n_obs.toNat)),
            ("education", (List.range n_obs.toNat).map (eduAt (applySeed seed g))),
            ("experience", (List.range n_obs.toNat).map (expAt (applySeed seed g) n_obs.toNat)),
            ("age", (List.range n_obs.toNat).map (ageAt (applySeed seed g) n_obs.toNat))] : Frame ℝ) =
          some ((List.range n_obs.toNat).map (expAt (applySeed seed g) n_obs.toNat)) := rfl
      rw [hl] at hex
      exact (Option.some.injEq _ _ ▸ hex).symm
    subst this
    intro v hv
    obtain ⟨i, -, rfl⟩ := List.mem_map.mp hv
    obtain ⟨h0, h1⟩ := hur ((applySeed seed g).pos + n_obs.toNat + i)
    unfold expAt uniformOf
    constructor <;> nlinarith
  · intro ag hag
    have : ag = (List.range n_obs.toNat).map (ageAt (applySeed seed g) n_obs.toNat) := by
      have hl : lookupKey "age"
          ([("wage", (List.range n_obs.toNat).map (wageAt (applySeed seed g) n_obs.toNat)),
            ("log_wage", (List.range n_obs.toNat).map (logWageAt (applySeed seed g) n_obs.toNat)),
            ("education", (List.range n_obs.toNat).map (eduAt (applySeed seed g))),
            ("experience", (List.range n_obs.toNat).map (expAt (applySeed seed g) n_obs.toNat)),
            ("age", (List.range n_obs.toNat).map (ageAt (applySeed seed g) n_obs.toNat))] : Frame ℝ) =
          some ((List.range n_obs.toNat).map (ageAt (applySeed seed g) n_obs.toNat)) := rfl
      rw [hl] at hag
      exact (Option.some.injEq _ _ ▸ hag).symm
    subst this
    intro v hv
    obtain ⟨i, -, rfl⟩ := List.mem_map.mp hv
    exact ⟨le_clip (by norm_num) _, clip_le _ _ _⟩
  · intro w hw
    have : w = (List.range n_obs.toNat).map (wageAt (applySeed seed g) n_obs.toNat) := by
      have hl : lookupKey "wage"
          ([("wage", (List.range n_obs.toNat).map (wageAt (applySeed seed g) n_obs.toNat)),
            ("log_wage", (List.range n_obs.toNat).map (logWageAt (applySeed seed g) n_obs.toNat)),
            ("education", (List.range n_obs.toNat).map (eduAt (applySeed seed g))),
            ("experience", (List.range n_obs.toNat).map (expAt (applySeed seed g) n_obs.toNat)),
            ("age", (List.range n_obs.toNat).map (ageAt (applySeed seed g) n_obs.toNat))] : Frame ℝ) =
          some ((List.range n_obs.toNat).map (wageAt (applySeed seed g) n_obs.toNat)) := rfl
      rw [hl] at hw
      exact (Option.some.injEq _ _ ▸ hw).symm
    subst this
    intro v hv
    obtain ⟨i, -, rfl⟩ := List.mem_map.mp hv
    exact Real.exp_pos _

/-- A concrete simulator run with count 2 and seed 7. -/
noncomputable def wSimPair : Frame ℝ × GlobalRng :=
  ((simulate_wage_data 2 (some 7) wRngA).toOption).getD ([], wRngA)

/-- Witness for C6: the concrete run satisfies the hypotheses and has the
five named columns of two values each. -/
theorem simulate_shape_bounds_witness :
    ((0 : ℤ) < 2 ∧ unitRange wRngA.entropy) ∧
    (wSimPair.1.map Prod.fst = ["wage", "log_wage", "education", "experience", "age"] ∧
      ∀ c ∈ wSimPair.1, c.2.length = (2 : ℤ).toNat) :=
  have hn : (0 : ℤ) < 2 := by norm_num
  have hu : unitRange wRngA.entropy := by
    intro i
    constructor <;> norm_num [wRngA]
  have h : simulate_wage_data 2 (some 7) wRngA = Except.ok (wSimPair.1, wSimPair.2) := rfl
  ⟨⟨hn, hu⟩,
   (simulate_shape_bounds 2 (some 7) wRngA hn hu wSimPair.1 wSimPair.2 h).1,
   (simulate_shape_bounds 2 (some 7) wRngA hn hu wSimPair.1 wSimPair.2 h).2.1⟩

/-- C7: In every dataset produced by `simulate_wage_data`, the education and
experience columns hold the generated (clipped education, range-bounded
experience) values, each row's log_wage equals
2.5 + 0.1·education + 0.05·experience − 0.001·experience² + ε with ε that
row's normal(0, 0.3) disturbance draw, and the wage column is exactly the
elementwise exponential of the log_wage column — hence strictly positive. -/
theorem simulate_logwage_formula (n_obs : ℤ) (seed : Option ℕ) (g : GlobalRng)
    (df : Frame ℝ) (g' : GlobalRng)
    (h : simulate_wage_data n_obs seed g = Except.ok (df, g'))
    (lw w ed ex : List ℝ)
    (hlw : lookupKey "log_wage" df = some lw)
    (hw : lookupKey "wage" df = some w)
    (hed : lookupKey "education" df = some ed)
    (hex : lookupKey "experience" df = some ex) :
    ed = (List.range n_obs.toNat).map (eduAt (applySeed seed g)) ∧
    ex = (List.range n_obs.toNat).map (expAt (applySeed seed g) n_obs.toNat) ∧
    lw = (List.range n_obs.toNat).map (fun i =>
      2.5 + 0.1 * eduAt (applySeed seed g) i
        + 0.05 * expAt (applySeed seed g) n_obs.toNat i
        - 0.001 * expAt (applySeed seed g) n_obs.toNat i ^ 2
        + epsAt (applySeed seed g) n_obs.toNat i) ∧
    w = lw.map Real.exp ∧
    (∀ v ∈ w, 0 < v) := by
  by_cases hneg : n_obs < 0
  · unfold simulate_wage_data at h
    rw [if_pos hneg] at h
    cases h
  · unfold simulate_wage_data at h
    rw [if_neg hneg] at h
    simp only [Except.ok.injEq, Prod.mk.injEq] at h
    obtain ⟨hdf, -⟩ := h
    subst hdf
    have hlw' : lw = (List.range n_obs.toNat).map (logWageAt (applySeed seed g) n_obs.toNat) := by
      have hl : lookupKey "log_wage"
          ([("wage", (List.range n_obs.toNat).map (wageAt (applySeed seed g) n_obs.toNat)),
            ("log_wage", (List.range n_obs.toNat).map (logWageAt (applySeed seed g) n_obs.toNat)),
            ("education", (List.range n_obs.toNat).map (eduAt (applySeed seed g))),
            ("experience", (List.range n_obs.toNat).map (expAt (applySeed seed g) n_obs.toNat)),
            ("age", (List.range n_obs.toNat).map (ageAt (applySeed seed g) n_obs.toNat))] : Frame ℝ) =
          some ((List.range n_obs.toNat).map (logWageAt (applySeed seed g) n_obs.toNat)) := rfl
      rw [hl] at hlw
      exact (Option.some.injEq _ _ ▸ hlw).symm
    have hw' : w = (List.range n_obs.toNat).map (wageAt (applySeed seed g) n_obs.toNat) := by
      have hl : lookupKey "wage"
          ([("wage", (List.range n_obs.toNat).map (wageAt (applySeed seed g) n_obs.toNat)),
            ("log_wage", (List.range n_obs.toNat).map (logWageAt (applySeed seed g) n_obs.toNat)),
            ("education", (List.range n_obs.toNat).map (eduAt (applySeed seed g))),
            ("experience", (List.range n_obs.toNat).map (expAt (applySeed seed g) n_obs.toNat)),
            ("age", (List.range n_obs.toNat).map (ageAt (applySeed seed g) n_obs.toNat))] : Frame ℝ) =
          some ((List.range n_obs.toNat).map (wageAt (applySeed seed g) n_obs.toNat)) := rfl
      rw [hl] at hw
      exact (Option.some.injEq _ _ ▸ hw).symm
    have hed' : ed = (List.range n_obs.toNat).map (eduAt (applySeed seed g)) := by
      have hl : lookupKey "education"
          ([("wage", (List.range n_obs.toNat).map (wageAt (applySeed seed g) n_obs.toNat)),
            ("log_wage", (List.range n_obs.toNat).map (logWageAt (applySeed seed g) n_obs.toNat)),
            ("education", (List.range n_obs.toNat).map (eduAt (applySeed seed g))),
            ("experience", (List.range n_obs.toNat).map (expAt (applySeed seed g) n_obs.toNat)),
            ("age", (List.range n_obs.toNat).map (ageAt (applySeed seed g) n_obs.toNat))] : Frame ℝ) =
          some ((List.range n_obs.toNat).map (eduAt (applySeed seed g))) := rfl
      rw [hl] at hed
      exact (Option.some.injEq _ _ ▸ hed).symm
    have hex' : ex = (List.range n_obs.toNat).map (expAt (applySeed seed g) n_obs.toNat) := by
      have hl : lookupKey "experience"
          ([("wage", (List.range n_obs.toNat).map (wageAt (applySeed seed g) n_obs.toNat)),
            ("log_wage", (List.range n_obs.toNat).map (logWageAt (applySeed seed g) n_obs.toNat)),
            ("education", (List.range n_obs.toNat).map (eduAt (applySeed seed g))),
            ("experience", (List.range n_obs.toNat).map (expAt (applySeed seed g) n_obs.toNat)),
            ("age", (List.range n_obs.toNat).map (ageAt (applySeed seed g) n_obs.toNat))] : Frame ℝ) =
          some ((List.range n_obs.toNat).map (expAt (applySeed seed g) n_obs.toNat)) := rfl
      rw [hl] at hex
      exact (Option.some.injEq _ _ ▸ hex).symm
    refine ⟨hed', hex', ?_, ?_, ?_⟩
    · rw [hlw']; rfl
    · rw [hw', hlw', List.map_map]
      rfl
    · intro v hv
      rw [hw'] at hv
      obtain ⟨i, -, rfl⟩ := List.mem_map.mp hv
      exact Real.exp_pos _

/-- A concrete simulator run with count 1 and seed 0, and its columns. -/
noncomputable def wSim7 : Frame ℝ × GlobalRng :=
  ((simulate_wage_data 1 (some 0) wRngA).toOption).getD ([], wRngA)

/-- The log_wage column of the concrete run `wSim7`. -/
noncomputable def wLogCol : List ℝ := (lookupKey "log_wage" wSim7.1).getD []

/-- The wage column of the concrete run `wSim7`. -/
noncomputable def wWageCol : List ℝ := (lookupKey "wage" wSim7.1).getD []

/-- The education column of the concrete run `wSim7`. -/
noncomputable def wEduCol : List ℝ := (lookupKey "education" wSim7.1).getD []

/-- The experience column of the concrete run `wSim7`. -/
noncomputable def wExpCol : List ℝ := (lookupKey "experience" wSim7.1).getD []

/-- Witness for C7: on the concrete run the wage column is the elementwise
exponential of the log_wage column, and strictly positive. -/
theorem simulate_logwage_formula_witness :
    wWageCol = wLogCol.map Real.exp ∧ ∀ v ∈ wWageCol, 0 < v :=
  have h : simulate_wage_data 1 (some 0) wRngA = Except.ok (wSim7.1, wSim7.2) := rfl
  have hlw : lookupKey "log_wage" wSim7.1 = some wLogCol := rfl
  have hw : lookupKey "wage" wSim7.1 = some wWageCol := rfl
  have hed : lookupKey "education" wSim7.1 = some wEduCol := rfl
  have hex : lookupKey "experience" wSim7.1 = some wExpCol := rfl
  ⟨(simulate_logwage_formula 1 (some 0) wRngA wSim7.1 wSim7.2 h
      wLogCol wWageCol wEduCol wExpCol hlw hw hed hex).2.2.2.1,
   (simulate_logwage_formula 1 (some 0) wRngA wSim7.1 wSim7.2 h
      wLogCol wWageCol wEduCol wExpCol hlw hw hed hex).2.2.2.2⟩

end EconAnalysis
